import Mathlib

/-!
Shallow embedding of the risk-calculation logic of `src/app.js`
(AI risk assessment tool).  The file holds two versions of the
application separated by a document marker: the original one
(lines 1-694, with a stub compound-rule engine) and the updated one
(lines 694-1518).  Definitions below are translated from the updated
version unless the namespace `V1` says otherwise.

Modelling conventions:
* CSV rows with free-form columns (`question[col]`) become functions
  `String → String`; a missing field is the empty string (both are
  falsy in the JS code and compare unequal to `"TRUE"`).
* JS `String.prototype.includes` is `jsIncludes` (contiguous
  substring test), `String.prototype.replace` with a string pattern
  replaces the first occurrence (`jsReplaceFirst`), `split` with a
  non-empty string separator is `jsSplit`.
* `parseInt(x) || 0` is `parseIntJS` (sign and leading decimal or
  hexadecimal digits, `0` when no digit is found).
* Comparisons against `undefined` in JS are false; the severity-order
  lookup therefore returns `Option Nat` and `isSeverityHigher` is
  false unless both lookups succeed.
-/

set_option maxHeartbeats 1000000

/-! ## Severity scale (`severityLevels`, `isSeverityHigher`,
`applySeverityModifier` - src/app.js lines 731, 1269-1279) -/

def severityLevels : List String := ["LOW", "MEDIUM", "HIGH", "CRITICAL"]

/-- The object `{ 'LOW': 0, 'MEDIUM': 1, 'HIGH': 2, 'CRITICAL': 3 }`
used by `isSeverityHigher`; indexing with any other key gives
`undefined`, modelled as `none`. -/
def severityOrder (s : String) : Option Nat :=
  if s = "LOW" then some 0
  else if s = "MEDIUM" then some 1
  else if s = "HIGH" then some 2
  else if s = "CRITICAL" then some 3
  else none

/-- `severityOrder[newSeverity] > severityOrder[currentSeverity]`;
in JS any `>` comparison involving `undefined` is false. -/
def isSeverityHigher (newSeverity currentSeverity : String) : Bool :=
  match severityOrder newSeverity, severityOrder currentSeverity with
  | some a, some b => b < a
  | _, _ => false

/-- JS `Array.prototype.indexOf`: index of the first element equal
to `s`, `-1` when absent. -/
def listIndexOf (l : List String) (s : String) : Int :=
  match l with
  | [] => -1
  | a :: t =>
      if a = s then 0
      else
        let r := listIndexOf t s
        if r = -1 then -1 else r + 1

/-- `severityOrder.indexOf(severity)`: index in `severityLevels`,
`-1` when absent. -/
def severityIndexOf (s : String) : Int :=
  listIndexOf severityLevels s

/-- `applySeverityModifier` (src/app.js lines 1274-1279): clamp
`indexOf(severity) + modifier` to `[0,3]` and index the level list. -/
def applySeverityModifier (severity : String) (modifier : Int) : String :=
  let currentIndex := severityIndexOf severity
  let newIndex := max 0 (min 3 (currentIndex + modifier))
  severityLevels.getD newIndex.toNat ""

/-- Rank of a severity string, used to state order facts
(`LOW = 0 < MEDIUM = 1 < HIGH = 2 < CRITICAL = 3`). -/
def sevRank (s : String) : Nat := (severityOrder s).getD 0

/-! ## Harm categories (`this.harmCategories`, src/app.js 714-721) -/

inductive Category where
  | Bias
  | Privacy
  | Flourishing
  | Organizational
  | Accuracy
  | Misuse
deriving DecidableEq, Repr

/-- Key insertion order of the `this.harmCategories` object literal,
which fixes the iteration order of every `Object.keys` /
`Object.values` loop over the severity map. -/
def Category.all : List Category :=
  [.Bias, .Privacy, .Flourishing, .Organizational, .Accuracy, .Misuse]

def Category.name : Category → String
  | .Bias => "Bias"
  | .Privacy => "Privacy"
  | .Flourishing => "Flourishing"
  | .Organizational => "Organizational"
  | .Accuracy => "Accuracy"
  | .Misuse => "Misuse"

/-- Display names, the values of the `this.harmCategories` object. -/
def harmCategoryTitle : Category → String
  | .Bias => "Bias & Authenticity"
  | .Privacy => "Privacy & Safety"
  | .Flourishing => "Human Flourishing & Interpretability"
  | .Organizational => "Organizational & Human Potential"
  | .Accuracy => "Misinformation & Accuracy"
  | .Misuse => "Misuse & Cyberbullying"

/-- String-keyed access `profile.harmCategories[s]`: the object only
ever holds the six category keys, so access is defined exactly when
`s` is one of their names. -/
def categoryOfName (s : String) : Option Category :=
  Category.all.find? (fun c => c.name = s)

theorem Category.mem_all (c : Category) : c ∈ Category.all := by
  cases c <;> decide

/-! ## JS string primitives -/

def startsWithList : List Char → List Char → Bool
  | [], _ => true
  | _ :: _, [] => false
  | a :: as, b :: bs => a = b && startsWithList as bs

def hasSegment (pat : List Char) : List Char → Bool
  | [] => startsWithList pat []
  | b :: bs => startsWithList pat (b :: bs) || hasSegment pat bs

/-- JS `s.includes(pat)`: contiguous substring test. -/
def jsIncludes (s pat : String) : Bool :=
  hasSegment pat.toList s.toList

def replaceFirstAux (pat rep : List Char) : List Char → List Char
  | [] => []
  | a :: as =>
      if startsWithList pat (a :: as) then rep ++ (a :: as).drop pat.length
      else a :: replaceFirstAux pat rep as

/-- JS `s.replace(pat, rep)` with a string pattern: replace the first
occurrence only. -/
def jsReplaceFirst (s pat rep : String) : String :=
  ⟨replaceFirstAux pat.toList rep.toList s.toList⟩

/-- Splitting scan for `jsSplit`.  The `fuel` argument bounds the
number of steps (each step consumes at least one character of the
third argument), so plain structural recursion suffices and the
definition reduces inside the kernel. -/
def jsSplitAux (sep : List Char) : Nat → List Char → List Char → List (List Char)
  | _, acc, [] => [acc.reverse]
  | 0, acc, rest => [acc.reverse ++ rest]
  | Nat.succ fuel, acc, c :: cs =>
      if startsWithList sep (c :: cs) ∧ sep ≠ [] then
        acc.reverse :: jsSplitAux sep fuel [] ((c :: cs).drop sep.length)
      else jsSplitAux sep fuel (c :: acc) cs

/-- JS `s.split(sep)` for a non-empty string separator: the pieces of
`s` between the non-overlapping occurrences of `sep`, scanned left to
right. -/
def jsSplit (s sep : String) : List String :=
  (jsSplitAux sep.toList s.toList.length [] s.toList).map List.asString

def decDigitsVal (cs : List Char) : Nat :=
  cs.foldl (fun acc c => acc * 10 + (c.toNat - 48)) 0

def hexDigitVal (c : Char) : Nat :=
  if c.isDigit then c.toNat - 48
  else if 'a' ≤ c ∧ c ≤ 'f' then c.toNat - 87
  else c.toNat - 55

def isHexDigit (c : Char) : Bool :=
  c.isDigit || ('a' ≤ c && c ≤ 'f') || ('A' ≤ c && c ≤ 'F')

def hexDigitsVal (cs : List Char) : Nat :=
  cs.foldl (fun acc c => acc * 16 + hexDigitVal c) 0

/-- JS `parseInt(s) || 0`: skip whitespace, read an optional sign,
then leading decimal digits (or hexadecimal digits after `0x`/`0X`);
`NaN` - that is, no digit at all - collapses to `0` through `|| 0`. -/
def parseIntJS (s : String) : Int :=
  let cs := s.toList.dropWhile Char.isWhitespace
  let signAndRest : Int × List Char :=
    match cs with
    | '-' :: t => (-1, t)
    | '+' :: t => (1, t)
    | t => (1, t)
  let sign := signAndRest.1
  let rest := signAndRest.2
  match rest with
  | '0' :: 'x' :: t =>
      let ds := t.takeWhile isHexDigit
      if ds = [] then 0 else sign * (hexDigitsVal ds : Int)
  | '0' :: 'X' :: t =>
      let ds := t.takeWhile isHexDigit
      if ds = [] then 0 else sign * (hexDigitsVal ds : Int)
  | _ =>
      let ds := rest.takeWhile Char.isDigit
      if ds = [] then 0 else sign * (decDigitsVal ds : Int)

/-! ## Data model -/

/-- A CSV row with named string fields; a missing field is `""`. -/
abbrev Row := String → String

/-- A row of `data/risk_explanations.csv`. -/
structure ExplanationRow where
  Risk_Category : String
  Severity_Level : String
  Tool_Type : String
  Explanation_Text : String
  Citation_Text : String
  Citation_URL : String
deriving DecidableEq, Repr

/-- A row of `data/compound_risk_rules.csv`. -/
structure Rule where
  Rule_ID : String
  Risk_Combination : String
  Trigger_Conditions : String
  Tool_Type : String
  Escalation_Effect : String
  Special_Warning : String
deriving DecidableEq, Repr

/-- Per-category entry of `profile.harmCategories` as initialized in
`calculateRiskProfile` (src/app.js 1026-1032). -/
structure CategoryRisk where
  severity : String
  hasRisk : Bool
  explanation : Option ExplanationRow
deriving DecidableEq, Repr

/-- Entries pushed on `profile.compoundWarnings` by `applyRule`. -/
structure CompoundWarning where
  ruleId : String
  warning : String
  riskCombination : String
deriving DecidableEq, Repr

/-- Entries pushed on `profile.activeRisks` by `addRiskExplanations`. -/
structure ActiveRisk where
  category : Category
  categoryName : String
  severity : String
  explanation : ExplanationRow
deriving DecidableEq, Repr

/-- The risk profile built by `calculateRiskProfile` (updated
version, src/app.js 1017-1064). -/
structure RiskProfile where
  toolType : String
  harmCategories : Category → CategoryRisk
  overallRisk : String
  activeRisks : List ActiveRisk
  compoundWarnings : List CompoundWarning

/-- Update one key of the severity map. -/
def setCat (hc : Category → CategoryRisk) (c : Category) (v : CategoryRisk) :
    Category → CategoryRisk :=
  fun d => if d = c then v else hc d

/-- The application state that `calculateRiskProfile` and the rule
checkers read: the selected tool, each tool question paired with its
(radio) answer, each context question paired with its answer, and the
loaded rule and explanation tables.  `Object.values(toolAnswers)`
corresponds to the present answers in question order. -/
structure AppState where
  selectedTool : String
  toolQA : List (Row × Option String)
  contextQA : List (Row × Option String)
  compoundRiskRules : List Rule
  riskExplanations : List ExplanationRow

def AppState.toolAnswerValues (st : AppState) : List String :=
  st.toolQA.filterMap (fun qa => qa.2)

def AppState.contextAnswerValues (st : AppState) : List String :=
  st.contextQA.filterMap (fun qa => qa.2)

/-! ## Answer processing (`processAnswerRisks`, src/app.js 1066-1082) -/

/-- Body of the `Object.keys(this.harmCategories).forEach` loop in
`processAnswerRisks`: when the `{answer}_{category}` flag is the
string `TRUE` or `true`, raise the category severity to the answer's
`{answer}_Severity` value if strictly higher (`|| 'LOW'` catches an
empty or missing field) and set `hasRisk`. -/
def processAnswerStep (question : Row) (answer : String)
    (hc : Category → CategoryRisk) (category : Category) :
    Category → CategoryRisk :=
  let riskVal := question (answer ++ "_" ++ category.name)
  if riskVal = "TRUE" ∨ riskVal = "true" then
    let sevRaw := question (answer ++ "_Severity")
    let severity := if sevRaw = "" then "LOW" else sevRaw
    let cd := hc category
    let cd :=
      if isSeverityHigher severity cd.severity then
        { cd with severity := severity }
      else cd
    setCat hc category { cd with hasRisk := true }
  else hc

def processAnswerRisks (question : Row) (answer : String)
    (profile : RiskProfile) : RiskProfile :=
  { profile with
      harmCategories :=
        Category.all.foldl (processAnswerStep question answer)
          profile.harmCategories }

/-! ## Context modifiers (`applyContextModifiers`, src/app.js
1084-1095) -/

/-- Loop body of `applyContextModifiers`: read
`parseInt(question[{answer}_{category}_Modifier]) || 0`; when nonzero
and the category already has risk, move its severity through
`applySeverityModifier` (written back unconditionally). -/
def applyContextStep (question : Row) (answer : String)
    (hc : Category → CategoryRisk) (category : Category) :
    Category → CategoryRisk :=
  let modifier := parseIntJS (question (answer ++ "_" ++ category.name ++ "_Modifier"))
  if modifier ≠ 0 ∧ (hc category).hasRisk then
    let cd := hc category
    setCat hc category
      { cd with severity := applySeverityModifier cd.severity modifier }
  else hc

def applyContextModifiers (question : Row) (answer : String)
    (profile : RiskProfile) : RiskProfile :=
  { profile with
      harmCategories :=
        Category.all.foldl (applyContextStep question answer)
          profile.harmCategories }

/-! ## Compound rules (`ruleApplies`, `applyRule` and helper checks,
src/app.js 1097-1236) -/

/-- `checkVulnerablePopulation` (src/app.js 1206-1212): looks for the
answer `D` among the context answer values; the `profile` and
`threshold` parameters are accepted and ignored, as in the source. -/
def checkVulnerablePopulation (st : AppState) (_profile : RiskProfile)
    (_threshold : Nat) : Bool :=
  st.contextAnswerValues.contains "D"

/-- `checkNoAppeals` (src/app.js 1214-1218): looks for the answer `A`
among the tool answer values. -/
def checkNoAppeals (st : AppState) (_profile : RiskProfile) : Bool :=
  st.toolAnswerValues.contains "A"

/-- `checkAutomatedIntegration` (src/app.js 1220-1224): looks for the
answer `D` among the tool answer values. -/
def checkAutomatedIntegration (st : AppState) (_profile : RiskProfile) : Bool :=
  st.toolAnswerValues.contains "D"

/-- Number of categories with `hasRisk` and the given severity, as in
the `Count_*_Risks>=2` branches of `ruleApplies`. -/
def countRisksAt (profile : RiskProfile) (sev : String) : Nat :=
  (Category.all.filter (fun c =>
    (profile.harmCategories c).hasRisk &&
      (profile.harmCategories c).severity = sev)).length

/-- `ruleApplies` (updated version, src/app.js 1106-1154).  The tool
gate compares `rule.Tool_Type` against `Both_Tools` and otherwise
requires `selectedTool.includes(toolType.toLowerCase().replace('_','_'))`
(the `replace` is an identity).  The condition chain tests fixed
patterns as substrings of the free-text `Trigger_Conditions`. -/
def ruleApplies (st : AppState) (rule : Rule) (profile : RiskProfile) : Bool :=
  let conditions := rule.Trigger_Conditions
  let toolType := rule.Tool_Type
  if toolType ≠ "Both_Tools" ∧
      ¬ (jsIncludes st.selectedTool (jsReplaceFirst toolType.toLower "_" "_") = true) then
    false
  else if jsIncludes conditions "Bias=HIGH" ∧
      (profile.harmCategories .Bias).severity = "HIGH" then
    if jsIncludes conditions "Vulnerable_Population>=60%" then
      checkVulnerablePopulation st profile 60
    else true
  else if jsIncludes conditions "Bias=CRITICAL" ∧
      (profile.harmCategories .Bias).severity = "CRITICAL" then
    if jsIncludes conditions "No_Appeals=TRUE" then
      checkNoAppeals st profile
    else true
  else if jsIncludes conditions "Integration=Automated" then
    checkAutomatedIntegration st profile
  else if jsIncludes conditions "Count_CRITICAL_Risks>=2" then
    2 ≤ countRisksAt profile "CRITICAL"
  else if jsIncludes conditions "Count_HIGH_Risks>=2" then
    2 ≤ countRisksAt profile "HIGH"
  else
    false

/-- `extractCategoryFromRule` (src/app.js 1226-1236): first category
name occurring as a substring of `Risk_Combination`. -/
def extractCategoryFromRule (rule : Rule) : Option Category :=
  let combination := rule.Risk_Combination
  if jsIncludes combination "Bias" then some .Bias
  else if jsIncludes combination "Privacy" then some .Privacy
  else if jsIncludes combination "Flourishing" then some .Flourishing
  else if jsIncludes combination "Organizational" then some .Organizational
  else if jsIncludes combination "Accuracy" then some .Accuracy
  else if jsIncludes combination "Misuse" then some .Misuse
  else none

/-- Loop body of the `Escalate_All_to_HIGH` branch of `applyRule`
(src/app.js 1178-1187). -/
def escalateAllStep (hc : Category → CategoryRisk) (category : Category) :
    Category → CategoryRisk :=
  if (hc category).hasRisk then
    if isSeverityHigher "HIGH" (hc category).severity then
      setCat hc category { hc category with severity := "HIGH" }
    else hc
  else hc

/-- The effect dispatch of `applyRule` (updated version, src/app.js
1160-1187), before the special-warning block.  Note the branch
order: any effect string containing both `Escalate_` and `_to_` -
including the literal `Escalate_All_to_HIGH` - is handled by the
generic split-on-`_to_` branch. -/
def applyRuleEffect (rule : Rule) (profile : RiskProfile) : RiskProfile :=
  let effect := rule.Escalation_Effect
  if effect = "Escalate_to_CRITICAL" then
    match extractCategoryFromRule rule with
    | some category =>
        { profile with
            harmCategories :=
              setCat profile.harmCategories category
                { profile.harmCategories category with
                    severity := "CRITICAL", hasRisk := true } }
    | none => profile
  else if jsIncludes effect "Escalate_" && jsIncludes effect "_to_" then
    let parts := jsSplit effect "_to_"
    let categoryPart := jsReplaceFirst (parts.getD 0 "") "Escalate_" ""
    let newSeverity := parts.getD 1 ""
    match categoryOfName categoryPart with
    | some category =>
        { profile with
            harmCategories :=
              setCat profile.harmCategories category
                { profile.harmCategories category with
                    severity := newSeverity, hasRisk := true } }
    | none => profile
  else if effect = "Escalate_All_to_HIGH" then
    { profile with
        harmCategories :=
          Category.all.foldl escalateAllStep profile.harmCategories }
  else profile

/-- `applyRule` (updated version, src/app.js 1156-1204): the effect
dispatch followed by the special-warning block (`if (warning)` is
truthy exactly on a non-empty field). -/
def applyRule (rule : Rule) (profile : RiskProfile) : RiskProfile :=
  let warning := rule.Special_Warning
  let p1 := applyRuleEffect rule profile
  if warning ≠ "" then
    { p1 with
        compoundWarnings :=
          p1.compoundWarnings ++
            [{ ruleId := rule.Rule_ID, warning := warning,
               riskCombination := rule.Risk_Combination }] }
  else p1

/-- `applyCompoundRiskRules` (src/app.js 1097-1104). -/
def applyCompoundRiskRules (st : AppState) (profile : RiskProfile) : RiskProfile :=
  st.compoundRiskRules.foldl
    (fun p rule => if ruleApplies st rule p then applyRule rule p else p)
    profile

/-! ## Explanations (`addRiskExplanations`, src/app.js 1238-1267) -/

/-- `toolTypeMap` of `selectTool` / `addRiskExplanations`: object
lookup, `undefined` (= `none`) for any other key. -/
def toolTypeMap (tool : String) : Option String :=
  if tool = "plagiarism_detection" then some "Plagiarism_Detection"
  else if tool = "llm_tutors" then some "LLM_Tutors"
  else none

/-- The `this.data.riskExplanations.find(...)` call: first row whose
`Risk_Category`, `Severity_Level` and `Tool_Type` match; the
`Tool_Type` comparison is against `toolTypeMap[selectedTool]`, which
can be `undefined` and then never equals a string field. -/
def findExplanation (st : AppState) (category : Category) (sev : String) :
    Option ExplanationRow :=
  st.riskExplanations.find? (fun e =>
    e.Risk_Category = category.name && e.Severity_Level = sev &&
      some e.Tool_Type = toolTypeMap st.selectedTool)

/-- Loop body of `addRiskExplanations`: for a category with
`hasRisk`, attach the first matching explanation row and push an
active-risk entry; otherwise leave the profile alone. -/
def addExplStep (st : AppState) (p : RiskProfile) (category : Category) :
    RiskProfile :=
  let cd := p.harmCategories category
  if cd.hasRisk then
    match findExplanation st category cd.severity with
    | some e =>
        { p with
            harmCategories :=
              setCat p.harmCategories category { cd with explanation := some e },
            activeRisks :=
              p.activeRisks ++
                [{ category := category,
                   categoryName := harmCategoryTitle category,
                   severity := cd.severity, explanation := e }] }
    | none => p
  else p

def addRiskExplanations (st : AppState) (profile : RiskProfile) : RiskProfile :=
  Category.all.foldl (addExplStep st) profile

/-! ## Overall risk (`determineOverallRisk`, src/app.js 1281-1291) -/

/-- Loop body of `determineOverallRisk`: keep the running maximum
under `isSeverityHigher`, only looking at flagged categories. -/
def overallStep (p : RiskProfile) (highest : String) (category : Category) :
    String :=
  if (p.harmCategories category).hasRisk &&
      isSeverityHigher (p.harmCategories category).severity highest then
    (p.harmCategories category).severity
  else highest

def determineOverallRisk (p : RiskProfile) : String :=
  Category.all.foldl (overallStep p) "LOW"

/-! ## Options (`parseOptions`, updated version, src/app.js 925-936) -/

structure AnswerOption where
  value : String
  text : String
deriving DecidableEq, Repr

/-- `parseOptions`: for each of the letters `A`-`D` in order, push an
option with the letter as value and the `Answer_{letter}` field as
text when that field is non-empty (truthy). -/
def parseOptions (question : Row) : List AnswerOption :=
  ["A", "B", "C", "D"].foldl (fun options letter =>
    if question ("Answer_" ++ letter) ≠ "" then
      options ++ [{ value := letter, text := question ("Answer_" ++ letter) }]
    else options) []

/-! ## The pipeline (`calculateRiskProfile`, src/app.js 1017-1064) -/

/-- The `profile` object literal and the initialization loop at the
top of `calculateRiskProfile` (src/app.js 1018-1032). -/
def initProfile (st : AppState) : RiskProfile :=
  { toolType := st.selectedTool
    harmCategories := fun _ =>
      { severity := "LOW", hasRisk := false, explanation := none }
    overallRisk := "LOW"
    activeRisks := []
    compoundWarnings := [] }

/-- Stage 1: the `currentToolQuestions.forEach` loop folding each
answered tool question into the profile (src/app.js 1034-1042). -/
def foldToolAnswers (st : AppState) (profile : RiskProfile) : RiskProfile :=
  st.toolQA.foldl (fun p qa =>
    match qa.2 with
    | some answer => processAnswerRisks qa.1 answer p
    | none => p) profile

/-- Stage 2: the `contextQuestions.forEach` loop applying each
answered context question's modifiers (src/app.js 1044-1052). -/
def foldContextAnswers (st : AppState) (profile : RiskProfile) : RiskProfile :=
  st.contextQA.foldl (fun p qa =>
    match qa.2 with
    | some answer => applyContextModifiers qa.1 answer p
    | none => p) profile

/-- `calculateRiskProfile` (src/app.js 1017-1064), written as the
source's statement sequence. -/
def calculateRiskProfile (st : AppState) : RiskProfile :=
  let profile := initProfile st
  let profile := foldToolAnswers st profile
  let profile := foldContextAnswers st profile
  let profile := applyCompoundRiskRules st profile
  let profile := addRiskExplanations st profile
  { profile with overallRisk := determineOverallRisk profile }

/-! ## The original implementation (first document in src/app.js,
lines 1-694), whose compound-rule engine is a stub. -/

namespace V1

/-- A risk entry of the original profile (src/app.js 379-384). -/
structure RiskDetail where
  question : String
  answer : String
  severity : String
  description : String
deriving DecidableEq, Repr

/-- Per-category entry of the original profile (src/app.js 330-336):
severity, collected risks, and per-layer manifestation lists. -/
structure CategoryRisk where
  severity : String
  risks : List RiskDetail
  layerManifestations : List (String × List (String × String))
deriving DecidableEq, Repr

/-- The original profile (src/app.js 321-327), with harm categories
keyed by the six two-letter codes. -/
structure RiskProfile where
  harmCategories : String → CategoryRisk
  overallRisk : String

/-- `ruleApplies` (src/app.js 435-439): `return false; // Placeholder`. -/
def ruleApplies (_rule : Rule) (_profile : RiskProfile) : Bool :=
  false

/-- `applyRule` (src/app.js 441-444): empty body, no mutation. -/
def applyRule (_rule : Rule) (profile : RiskProfile) : RiskProfile :=
  profile

/-- `applyCompoundRiskRules` (src/app.js 427-433). -/
def applyCompoundRiskRules (rules : List Rule) (profile : RiskProfile) :
    RiskProfile :=
  rules.foldl
    (fun p rule => if ruleApplies rule p then applyRule rule p else p)
    profile

end V1

/-! ## Invariant vocabulary -/

/-- Every recorded severity is one of the four enumeration values. -/
def ProfileSevInv (p : RiskProfile) : Prop :=
  ∀ c, (p.harmCategories c).severity ∈ severityLevels

instance (p : RiskProfile) : Decidable (ProfileSevInv p) :=
  decidable_of_iff
    (∀ c ∈ Category.all, (p.harmCategories c).severity ∈ severityLevels)
    ⟨fun h c => h c (Category.mem_all c), fun h c _ => h c⟩

/-- A rule whose generic `Escalate_X_to_Y` branch, if taken, writes
one of the four severity levels (the text after the first `_to_` is
the severity that `applyRule` records). -/
def EffectWellFormed (r : Rule) : Prop :=
  r.Escalation_Effect = "Escalate_to_CRITICAL" ∨
  jsIncludes r.Escalation_Effect "Escalate_" = false ∨
  jsIncludes r.Escalation_Effect "_to_" = false ∨
  ((jsSplit r.Escalation_Effect "_to_").getD 1 "") ∈ severityLevels

instance (r : Rule) : Decidable (EffectWellFormed r) := by
  unfold EffectWellFormed
  infer_instance

/-! ## Helper lemmas about the severity scale -/

theorem severityOrder_some_mem {a : String} {n : Nat}
    (h : severityOrder a = some n) : a ∈ severityLevels := by
  unfold severityOrder at h
  split_ifs at h with h1 h2 h3 h4 <;> simp_all [severityLevels]

theorem isSeverityHigher_left_mem {a b : String}
    (h : isSeverityHigher a b = true) : a ∈ severityLevels := by
  unfold isSeverityHigher at h
  cases ha : severityOrder a with
  | some n => exact severityOrder_some_mem ha
  | none =>
      rw [ha] at h
      cases severityOrder b <;> simp_all

theorem isSeverityHigher_iff {a b : String} (ha : a ∈ severityLevels)
    (hb : b ∈ severityLevels) :
    isSeverityHigher a b = true ↔ sevRank b < sevRank a := by
  simp only [severityLevels, List.mem_cons, List.not_mem_nil, or_false] at ha hb
  rcases ha with rfl | rfl | rfl | rfl <;> rcases hb with rfl | rfl | rfl | rfl <;>
    decide

theorem severityIndexOf_of_not_mem {s : String} (hs : s ∉ severityLevels) :
    severityIndexOf s = -1 := by
  have h1 : "LOW" ≠ s := fun h => hs (by rw [← h]; decide)
  have h2 : "MEDIUM" ≠ s := fun h => hs (by rw [← h]; decide)
  have h3 : "HIGH" ≠ s := fun h => hs (by rw [← h]; decide)
  have h4 : "CRITICAL" ≠ s := fun h => hs (by rw [← h]; decide)
  simp [severityIndexOf, severityLevels, listIndexOf, h1, h2, h3, h4]

theorem applySeverityModifier_mem (s : String) (m : Int) :
    applySeverityModifier s m ∈ severityLevels := by
  have h3 : (max 0 (min 3 (severityIndexOf s + m))).toNat ≤ 3 := by
    have h2 : min 3 (severityIndexOf s + m) ≤ (3 : Int) := min_le_left _ _
    omega
  simp only [applySeverityModifier]
  generalize (max 0 (min 3 (severityIndexOf s + m))).toNat = k at h3
  interval_cases k <;> decide

/-! ## C3: clamping of context modifiers -/

/-- C3: applying a context modifier clamps to the ordinal range of
the severity scale: for every current severity level at index
`i ∈ {0,1,2,3}` and every integer modifier `m`, the result of
`applySeverityModifier` is the level at index `max 0 (min 3 (i + m))`,
so it never leaves the four-level scale. -/
theorem applySeverityModifier_clamps (i : Nat) (hi : i < 4) (m : Int) :
    applySeverityModifier (severityLevels.getD i "") m
      = severityLevels.getD (max 0 (min 3 ((i : Int) + m))).toNat "" := by
  interval_cases i <;> rfl

theorem applySeverityModifier_clamps_witness :
    applySeverityModifier (severityLevels.getD 1 "") 5
      = severityLevels.getD (max 0 (min 3 (((1 : Nat) : Int) + 5))).toNat "" :=
  applySeverityModifier_clamps 1 (by decide) 5

/-! ## C8: totality of `applySeverityModifier` -/

/-- C8: `applySeverityModifier` is total: for every input string
(four-level or not) and every integer modifier the result is one of
`LOW`, `MEDIUM`, `HIGH`, `CRITICAL`, because the computed index is
clamped to `[0,3]` before indexing; an unrecognized severity has
index `-1` and therefore clamps toward `LOW`. -/
theorem applySeverityModifier_total (s : String) (m : Int) :
    applySeverityModifier s m ∈ severityLevels ∧
    (s ∉ severityLevels →
      applySeverityModifier s m
        = severityLevels.getD (max 0 (min 3 (-1 + m))).toNat "") := by
  refine ⟨applySeverityModifier_mem s m, fun hs => ?_⟩
  simp only [applySeverityModifier, severityIndexOf_of_not_mem hs]

theorem applySeverityModifier_total_witness :
    applySeverityModifier "UNKNOWN" 5 ∈ severityLevels ∧
    applySeverityModifier "UNKNOWN" 5
      = severityLevels.getD (max 0 (min 3 (-1 + 5))).toNat "" :=
  ⟨(applySeverityModifier_total "UNKNOWN" 5).1,
   (applySeverityModifier_total "UNKNOWN" 5).2 (by decide)⟩

/-! ## C7: at most four answer options -/

/-- C7: for every question row, `parseOptions` returns at most four
options, drawn in order from the non-empty fields `Answer_A` to
`Answer_D`, each carrying the letter as its value and the field text
as its label. -/
theorem parseOptions_spec (question : Row) :
    (parseOptions question).length ≤ 4 ∧
    parseOptions question
      = (["A", "B", "C", "D"].filterMap (fun letter =>
          if question ("Answer_" ++ letter) ≠ "" then
            some { value := letter, text := question ("Answer_" ++ letter) }
          else none)) := by
  have h : parseOptions question
      = (["A", "B", "C", "D"].filterMap (fun letter =>
          if question ("Answer_" ++ letter) ≠ "" then
            some { value := letter, text := question ("Answer_" ++ letter) }
          else none)) := by
    simp only [parseOptions, List.foldl, List.filterMap]
    split_ifs <;> rfl
  refine ⟨?_, h⟩
  rw [h]
  simp only [List.filterMap]
  split_ifs <;> simp

/-! ## Concrete rows, rules and profiles used as inputs -/

/-- A profile with a `HIGH`-severity flagged `Bias` category and all
other categories at `LOW` without risk. -/
def profileBiasHigh : RiskProfile :=
  { toolType := "llm_tutors"
    harmCategories := fun c =>
      if c = Category.Bias then
        { severity := "HIGH", hasRisk := true, explanation := none }
      else { severity := "LOW", hasRisk := false, explanation := none }
    overallRisk := "LOW", activeRisks := [], compoundWarnings := [] }

/-- A profile with a `LOW`-severity flagged `Bias` category. -/
def profileBiasLow : RiskProfile :=
  { toolType := "llm_tutors"
    harmCategories := fun c =>
      if c = Category.Bias then
        { severity := "LOW", hasRisk := true, explanation := none }
      else { severity := "LOW", hasRisk := false, explanation := none }
    overallRisk := "LOW", activeRisks := [], compoundWarnings := [] }

/-- A rule triggered by `Bias=HIGH` that escalates to `CRITICAL`. -/
def ruleBiasHigh : Rule :=
  { Rule_ID := "R1", Risk_Combination := "Bias+Privacy",
    Trigger_Conditions := "Bias=HIGH", Tool_Type := "Both_Tools",
    Escalation_Effect := "Escalate_to_CRITICAL", Special_Warning := "" }

/-- A rule whose escalation effect names a severity outside the
four-level scale. -/
def ruleBadTarget : Rule :=
  { Rule_ID := "R2", Risk_Combination := "Privacy+Accuracy",
    Trigger_Conditions := "Integration=Automated", Tool_Type := "Both_Tools",
    Escalation_Effect := "Escalate_Privacy_to_EXTREME", Special_Warning := "" }

/-- A rule with the `Escalate_All_to_HIGH` effect. -/
def ruleEscalateAll : Rule :=
  { Rule_ID := "R3", Risk_Combination := "Multiple",
    Trigger_Conditions := "Count_HIGH_Risks>=2", Tool_Type := "Both_Tools",
    Escalation_Effect := "Escalate_All_to_HIGH", Special_Warning := "" }

/-- An application state with one tool answer `D` (so
`checkAutomatedIntegration` holds) and `ruleBadTarget` loaded. -/
def stateAutomated : AppState :=
  { selectedTool := "llm_tutors"
    toolQA := [(fun _ => "", some "D")]
    contextQA := []
    compoundRiskRules := [ruleBadTarget]
    riskExplanations := [] }

/-! ## C1: the compound-rule engine -/

/-- C1 counterexample: in the updated implementation the engine is
not a stub: `ruleApplies` returns `true` for a `Bias=HIGH` rule on a
profile whose `Bias` severity is `HIGH`, and `applyRule` escalates
`Bias` from `HIGH` to `CRITICAL`. -/
theorem compound_engine_not_stub :
    ruleApplies stateAutomated ruleBiasHigh profileBiasHigh = true ∧
    (profileBiasHigh.harmCategories Category.Bias).severity = "HIGH" ∧
    ((applyRule ruleBiasHigh profileBiasHigh).harmCategories
        Category.Bias).severity = "CRITICAL" := by
  decide

/-- C1 (amended): only in the original implementation (the first
document in src/app.js) is the compound-rule engine a stub: there,
`ruleApplies` returns `false` for every rule and every profile,
`applyRule` performs no escalation, and consequently
`applyCompoundRiskRules` never changes the profile. -/
theorem v1_compound_engine_stub (rules : List Rule) (r : Rule)
    (p : V1.RiskProfile) :
    V1.ruleApplies r p = false ∧ V1.applyRule r p = p ∧
    V1.applyCompoundRiskRules rules p = p := by
  refine ⟨rfl, rfl, ?_⟩
  induction rules with
  | nil => rfl
  | cons a t ih =>
      unfold V1.applyCompoundRiskRules at ih ⊢
      rw [List.foldl_cons]
      exact ih

/-! ## C10: the `Escalate_All_to_HIGH` effect -/

/-- C10: the dedicated `Escalate_All_to_HIGH` branch of `applyRule`
(src/app.js 1178-1187) is unreachable: the effect string contains
both `Escalate_` and `_to_`, so the earlier generic branch fires,
extracts the non-category `All`, and changes nothing.  A profile with
a flagged `Bias` category below `HIGH` is returned untouched instead
of being raised to `HIGH`. -/
theorem escalateAll_branch_unreachable :
    (profileBiasLow.harmCategories Category.Bias).hasRisk = true ∧
    isSeverityHigher "HIGH"
        (profileBiasLow.harmCategories Category.Bias).severity = true ∧
    jsIncludes ruleEscalateAll.Escalation_Effect "Escalate_" = true ∧
    jsIncludes ruleEscalateAll.Escalation_Effect "_to_" = true ∧
    categoryOfName
        (jsReplaceFirst
          ((jsSplit ruleEscalateAll.Escalation_Effect "_to_").getD 0 "")
          "Escalate_" "") = none ∧
    applyRule ruleEscalateAll profileBiasLow = profileBiasLow := by
  refine ⟨by decide, by decide, by decide, by decide, by decide, rfl⟩

/-! ## C2: the severity invariant -/

/-- C2 counterexample: applying the loaded compound rules can leave
the four-level scale.  Starting from the freshly initialized profile
(which satisfies the invariant), the rule whose escalation effect is
`Escalate_Privacy_to_EXTREME` fires via `Integration=Automated` and
records the severity `EXTREME`, which is none of the four levels. -/
theorem severity_invariant_broken_by_rule :
    ProfileSevInv (initProfile stateAutomated) ∧
    ruleApplies stateAutomated ruleBadTarget (initProfile stateAutomated)
      = true ∧
    ((applyCompoundRiskRules stateAutomated
        (initProfile stateAutomated)).harmCategories
          Category.Privacy).severity = "EXTREME" ∧
    "EXTREME" ∉ severityLevels := by
  decide

/-- Pointwise invariance of a severity-map fold: if the step function
preserves "every severity is on the scale", so does the fold. -/
theorem foldl_sev_inv
    {step : (Category → CategoryRisk) → Category → Category → CategoryRisk}
    (hstep : ∀ hc d, (∀ c, (hc c).severity ∈ severityLevels) →
        ∀ c, ((step hc d) c).severity ∈ severityLevels)
    (l : List Category) (hc : Category → CategoryRisk)
    (h : ∀ c, (hc c).severity ∈ severityLevels) :
    ∀ c, ((l.foldl step hc) c).severity ∈ severityLevels := by
  induction l generalizing hc with
  | nil => exact h
  | cons d t ih => exact ih (step hc d) (hstep hc d h)


theorem processAnswerStep_inv (question : Row) (answer : String)
    (hc : Category → CategoryRisk) (d : Category)
    (h : ∀ c, (hc c).severity ∈ severityLevels) :
    ∀ c, ((processAnswerStep question answer hc d) c).severity ∈ severityLevels := by
  intro c
  have key : ∀ (sev2 : String) (cd : CategoryRisk), cd.severity ∈ severityLevels →
      (if isSeverityHigher sev2 cd.severity = true
        then { cd with severity := sev2 } else cd).severity ∈ severityLevels := by
    intro sev2 cd hcd2
    split
    · next hhi => exact isSeverityHigher_left_mem hhi
    · exact hcd2
  unfold processAnswerStep
  split
  · unfold setCat
    by_cases hcd : c = d
    · simp only [hcd, if_pos rfl]
      exact key _ (hc d) (h d)
    · simp only [if_neg hcd]
      exact h c
  · exact h c

theorem applyContextStep_inv (question : Row) (answer : String)
    (hc : Category → CategoryRisk) (d : Category)
    (h : ∀ c, (hc c).severity ∈ severityLevels) :
    ∀ c, ((applyContextStep question answer hc d) c).severity ∈ severityLevels := by
  intro c
  unfold applyContextStep
  split
  · unfold setCat
    by_cases hcd : c = d
    · simp only [hcd, if_pos rfl]
      exact applySeverityModifier_mem _ _
    · simp only [if_neg hcd]
      exact h c
  · exact h c

theorem escalateAllStep_inv (hc : Category → CategoryRisk) (d : Category)
    (h : ∀ c, (hc c).severity ∈ severityLevels) :
    ∀ c, ((escalateAllStep hc d) c).severity ∈ severityLevels := by
  intro c
  unfold escalateAllStep
  split
  · split
    · unfold setCat
      by_cases hcd : c = d
      · simp only [hcd, if_pos rfl]
        show "HIGH" ∈ severityLevels
        decide
      · simp only [if_neg hcd]
        exact h c
    · exact h c
  · exact h c

theorem applyRuleEffect_inv {r : Rule} {p : RiskProfile}
    (hr : EffectWellFormed r) (hp : ProfileSevInv p) :
    ProfileSevInv (applyRuleEffect r p) := by
  intro c
  simp only [applyRuleEffect]
  split_ifs with h1 h2 h3
  · cases hcat : extractCategoryFromRule r with
    | some cat =>
        simp only [hcat]
        unfold setCat
        by_cases hcd : c = cat
        · simp only [hcd, if_pos rfl]
          show "CRITICAL" ∈ severityLevels
          decide
        · simp only [if_neg hcd]
          exact hp c
    | none =>
        simp only [hcat]
        exact hp c
  · cases hcat : categoryOfName
        (jsReplaceFirst ((jsSplit r.Escalation_Effect "_to_").getD 0 "")
          "Escalate_" "") with
    | some cat =>
        simp only [hcat]
        unfold setCat
        by_cases hcd : c = cat
        · simp only [hcd, if_pos rfl]
          show (jsSplit r.Escalation_Effect "_to_").getD 1 "" ∈ severityLevels
          rw [Bool.and_eq_true] at h2
          rcases hr with he | hi | hi | hmem
          · exact absurd he h1
          · simp [h2.1] at hi
          · simp [h2.2] at hi
          · exact hmem
        · simp only [if_neg hcd]
          exact hp c
    | none =>
        simp only [hcat]
        exact hp c
  · exact foldl_sev_inv escalateAllStep_inv Category.all p.harmCategories hp c
  · exact hp c

theorem applyRule_inv {r : Rule} {p : RiskProfile}
    (hr : EffectWellFormed r) (hp : ProfileSevInv p) :
    ProfileSevInv (applyRule r p) := by
  intro c
  simp only [applyRule]
  split
  · exact applyRuleEffect_inv hr hp c
  · exact applyRuleEffect_inv hr hp c

theorem processAnswerRisks_inv (question : Row) (answer : String)
    {p : RiskProfile} (hp : ProfileSevInv p) :
    ProfileSevInv (processAnswerRisks question answer p) :=
  fun c =>
    foldl_sev_inv (processAnswerStep_inv question answer) Category.all
      p.harmCategories hp c

theorem applyContextModifiers_inv (question : Row) (answer : String)
    {p : RiskProfile} (hp : ProfileSevInv p) :
    ProfileSevInv (applyContextModifiers question answer p) :=
  fun c =>
    foldl_sev_inv (applyContextStep_inv question answer) Category.all
      p.harmCategories hp c

/-- C2 (amended): each step of the risk pipeline keeps every harm
category's severity inside the four-level enumeration - the
initialization trivially, `processAnswerRisks` and
`applyContextModifiers` unconditionally, and `applyRule` provided the
rule's escalation effect is well-formed (its `_to_` target is one of
the four levels); the unrestricted statement fails, see the
counterexample.  The comparisons use the order
`LOW < MEDIUM < HIGH < CRITICAL`. -/
theorem severity_invariant_preserved (st : AppState) (question : Row)
    (answer : String) (r : Rule) (p : RiskProfile)
    (hp : ProfileSevInv p) (hr : EffectWellFormed r) :
    ProfileSevInv (initProfile st) ∧
    ProfileSevInv (processAnswerRisks question answer p) ∧
    ProfileSevInv (applyContextModifiers question answer p) ∧
    ProfileSevInv (applyRule r p) ∧
    (∀ i, i < 4 → ∀ j, j < 4 →
      isSeverityHigher (severityLevels.getD i "") (severityLevels.getD j "")
        = decide (j < i)) := by
  refine ⟨fun c => ?_, processAnswerRisks_inv question answer hp,
    applyContextModifiers_inv question answer hp, applyRule_inv hr hp, by decide⟩
  show "LOW" ∈ severityLevels
  decide

/-- A question row giving answer `A` a `TRUE` `Bias` flag with
severity `HIGH`. -/
def questionBiasHigh : Row :=
  fun f => if f = "A_Bias" then "TRUE" else if f = "A_Severity" then "HIGH" else ""

theorem severity_invariant_preserved_witness :
    ProfileSevInv
      (processAnswerRisks questionBiasHigh "A" (initProfile stateAutomated)) ∧
    ProfileSevInv (applyRule ruleBiasHigh (initProfile stateAutomated)) :=
  ⟨(severity_invariant_preserved stateAutomated questionBiasHigh "A"
      ruleBiasHigh (initProfile stateAutomated) (by decide) (by decide)).2.1,
   (severity_invariant_preserved stateAutomated questionBiasHigh "A"
      ruleBiasHigh (initProfile stateAutomated) (by decide) (by decide)).2.2.2.1⟩

/-! ## C9: the overall risk is the maximum flagged severity -/

theorem overall_foldl_spec (p : RiskProfile) (hp : ProfileSevInv p)
    (l : List Category) (acc : String) (hacc : acc ∈ severityLevels) :
    (l.foldl (overallStep p) acc) ∈ severityLevels ∧
    sevRank acc ≤ sevRank (l.foldl (overallStep p) acc) ∧
    (∀ c ∈ l, (p.harmCategories c).hasRisk = true →
        sevRank (p.harmCategories c).severity
          ≤ sevRank (l.foldl (overallStep p) acc)) ∧
    (l.foldl (overallStep p) acc = acc ∨
      ∃ c ∈ l, (p.harmCategories c).hasRisk = true ∧
        (p.harmCategories c).severity = l.foldl (overallStep p) acc) := by
  induction l generalizing acc with
  | nil =>
      refine ⟨hacc, le_refl _, ?_, Or.inl rfl⟩
      intro c hcl
      cases hcl
  | cons d t ih =>
      rw [List.foldl_cons]
      by_cases hcond : ((p.harmCategories d).hasRisk &&
          isSeverityHigher (p.harmCategories d).severity acc) = true
      · have hstep : overallStep p acc d = (p.harmCategories d).severity := by
          unfold overallStep
          rw [if_pos hcond]
        rw [Bool.and_eq_true] at hcond
        have hdm : (p.harmCategories d).severity ∈ severityLevels := hp d
        have hlt : sevRank acc < sevRank (p.harmCategories d).severity :=
          (isSeverityHigher_iff hdm hacc).mp hcond.2
        rw [hstep]
        obtain ⟨m1, m2, m3, m4⟩ := ih (p.harmCategories d).severity hdm
        refine ⟨m1, le_trans (le_of_lt hlt) m2, ?_, ?_⟩
        · intro c hcl hcr
          rcases List.mem_cons.mp hcl with rfl | hct
          · exact m2
          · exact m3 c hct hcr
        · rcases m4 with heq | ⟨c, hct, hcr, hce⟩
          · exact Or.inr ⟨d, List.mem_cons_self d t, hcond.1, heq.symm⟩
          · exact Or.inr ⟨c, List.mem_cons_of_mem d hct, hcr, hce⟩
      · have hstep : overallStep p acc d = acc := by
          unfold overallStep
          rw [if_neg hcond]
        rw [hstep]
        obtain ⟨m1, m2, m3, m4⟩ := ih acc hacc
        refine ⟨m1, m2, ?_, ?_⟩
        · intro c hcl hcr
          rcases List.mem_cons.mp hcl with rfl | hct
          · have hhi : isSeverityHigher (p.harmCategories c).severity acc
                = false := by
              cases hh : isSeverityHigher (p.harmCategories c).severity acc
              · rfl
              · exact absurd (by rw [hcr, hh]; rfl) hcond
            have hnlt : ¬ (sevRank acc < sevRank (p.harmCategories c).severity) := by
              intro hlt
              exact absurd ((isSeverityHigher_iff (hp c) hacc).mpr hlt)
                (by simp [hhi])
            exact le_trans (le_of_not_lt hnlt) m2
          · exact m3 c hct hcr
        · rcases m4 with heq | ⟨c, hct, hcr, hce⟩
          · exact Or.inl heq
          · exact Or.inr ⟨c, List.mem_cons_of_mem d hct, hcr, hce⟩

/-- C9: for every risk profile whose severities lie on the four-level
scale, `determineOverallRisk` returns the highest severity (under
`LOW < MEDIUM < HIGH < CRITICAL`) among the categories flagged
`hasRisk`: it is on the scale, equals `LOW` when nothing is flagged,
is at least every flagged category's severity, and is `LOW` or
attained by some flagged category. -/
theorem determineOverallRisk_is_max (p : RiskProfile) (hp : ProfileSevInv p) :
    determineOverallRisk p ∈ severityLevels ∧
    ((∀ c, (p.harmCategories c).hasRisk = false) →
        determineOverallRisk p = "LOW") ∧
    (∀ c, (p.harmCategories c).hasRisk = true →
        sevRank (p.harmCategories c).severity
          ≤ sevRank (determineOverallRisk p)) ∧
    (determineOverallRisk p = "LOW" ∨
      ∃ c, (p.harmCategories c).hasRisk = true ∧
        (p.harmCategories c).severity = determineOverallRisk p) := by
  obtain ⟨m1, m2, m3, m4⟩ :=
    overall_foldl_spec p hp Category.all "LOW" (by decide)
  refine ⟨m1, ?_, ?_, ?_⟩
  · intro hnone
    rcases m4 with heq | ⟨c, _, hcr, _⟩
    · exact heq
    · rw [hnone c] at hcr
      cases hcr
  · intro c hcr
    exact m3 c (Category.mem_all c) hcr
  · rcases m4 with heq | ⟨c, _, hcr, hce⟩
    · exact Or.inl heq
    · exact Or.inr ⟨c, hcr, hce⟩

theorem determineOverallRisk_is_max_witness :
    determineOverallRisk profileBiasHigh = "HIGH" ∧
    determineOverallRisk profileBiasHigh ∈ severityLevels ∧
    determineOverallRisk (initProfile stateAutomated) = "LOW" :=
  ⟨by decide, (determineOverallRisk_is_max profileBiasHigh (by decide)).1,
   (determineOverallRisk_is_max (initProfile stateAutomated)
      (by decide)).2.1 (fun _ => rfl)⟩

/-! ## C5: substring matching of compound rules -/

/-- C5 (amended): whether a compound rule applies is decided purely
by substring tests of its free-text `Trigger_Conditions` against the
fixed pattern set of `ruleApplies` (together with the rule's
`Tool_Type`): two rules agreeing on those tests and on `Tool_Type`
apply to exactly the same states and profiles. -/
theorem ruleApplies_substring_only (st : AppState) (r1 r2 : Rule)
    (p : RiskProfile)
    (htool : r1.Tool_Type = r2.Tool_Type)
    (h1 : jsIncludes r1.Trigger_Conditions "Bias=HIGH"
        = jsIncludes r2.Trigger_Conditions "Bias=HIGH")
    (h2 : jsIncludes r1.Trigger_Conditions "Vulnerable_Population>=60%"
        = jsIncludes r2.Trigger_Conditions "Vulnerable_Population>=60%")
    (h3 : jsIncludes r1.Trigger_Conditions "Bias=CRITICAL"
        = jsIncludes r2.Trigger_Conditions "Bias=CRITICAL")
    (h4 : jsIncludes r1.Trigger_Conditions "No_Appeals=TRUE"
        = jsIncludes r2.Trigger_Conditions "No_Appeals=TRUE")
    (h5 : jsIncludes r1.Trigger_Conditions "Integration=Automated"
        = jsIncludes r2.Trigger_Conditions "Integration=Automated")
    (h6 : jsIncludes r1.Trigger_Conditions "Count_CRITICAL_Risks>=2"
        = jsIncludes r2.Trigger_Conditions "Count_CRITICAL_Risks>=2")
    (h7 : jsIncludes r1.Trigger_Conditions "Count_HIGH_Risks>=2"
        = jsIncludes r2.Trigger_Conditions "Count_HIGH_Risks>=2") :
    ruleApplies st r1 p = ruleApplies st r2 p := by
  simp only [ruleApplies, htool, h1, h2, h3, h4, h5, h6, h7]

theorem ruleApplies_substring_only_witness :
    ruleApplies stateAutomated
      { Rule_ID := "W1", Risk_Combination := "X",
        Trigger_Conditions := "Bias=HIGH and more text",
        Tool_Type := "Both_Tools",
        Escalation_Effect := "", Special_Warning := "" }
      profileBiasHigh
    = ruleApplies stateAutomated
      { Rule_ID := "W2", Risk_Combination := "Y",
        Trigger_Conditions := "prefix Bias=HIGH suffix",
        Tool_Type := "Both_Tools",
        Escalation_Effect := "", Special_Warning := "" }
      profileBiasHigh :=
  ruleApplies_substring_only stateAutomated
    { Rule_ID := "W1", Risk_Combination := "X",
      Trigger_Conditions := "Bias=HIGH and more text",
      Tool_Type := "Both_Tools",
      Escalation_Effect := "", Special_Warning := "" }
    { Rule_ID := "W2", Risk_Combination := "Y",
      Trigger_Conditions := "prefix Bias=HIGH suffix",
      Tool_Type := "Both_Tools",
      Escalation_Effect := "", Special_Warning := "" }
    profileBiasHigh rfl (by decide) (by decide) (by decide) (by decide)
    (by decide) (by decide) (by decide)

/-- A rule escalating `Privacy` to `HIGH` through the generic
`Escalate_X_to_Y` branch. -/
def rulePrivacyHigh : Rule :=
  { Rule_ID := "R4", Risk_Combination := "Privacy+Misuse",
    Trigger_Conditions := "Count_HIGH_Risks>=2", Tool_Type := "Both_Tools",
    Escalation_Effect := "Escalate_Privacy_to_HIGH", Special_Warning := "" }

/-- The same rule with effect target `CRITICAL` instead of `HIGH`. -/
def rulePrivacyCritical : Rule :=
  { Rule_ID := "R4", Risk_Combination := "Privacy+Misuse",
    Trigger_Conditions := "Count_HIGH_Risks>=2", Tool_Type := "Both_Tools",
    Escalation_Effect := "Escalate_Privacy_to_CRITICAL", Special_Warning := "" }

/-- C5 counterexample: the mutation performed by a rule's effect is
not determined by substring tests of `Escalation_Effect`: the two
effect strings below agree on every test `applyRule` performs on the
effect (the substrings `Escalate_` and `_to_` and the two literal
comparisons), yet one writes `HIGH` and the other `CRITICAL` to the
`Privacy` category - `applyRule` extracts the written severity as the
text after `_to_`. -/
theorem applyRule_effect_not_substring_only :
    rulePrivacyHigh.Trigger_Conditions = rulePrivacyCritical.Trigger_Conditions ∧
    rulePrivacyHigh.Tool_Type = rulePrivacyCritical.Tool_Type ∧
    (jsIncludes rulePrivacyHigh.Escalation_Effect "Escalate_"
      = jsIncludes rulePrivacyCritical.Escalation_Effect "Escalate_") ∧
    (jsIncludes rulePrivacyHigh.Escalation_Effect "_to_"
      = jsIncludes rulePrivacyCritical.Escalation_Effect "_to_") ∧
    ((rulePrivacyHigh.Escalation_Effect = "Escalate_to_CRITICAL") ↔
      (rulePrivacyCritical.Escalation_Effect = "Escalate_to_CRITICAL")) ∧
    ((rulePrivacyHigh.Escalation_Effect = "Escalate_All_to_HIGH") ↔
      (rulePrivacyCritical.Escalation_Effect = "Escalate_All_to_HIGH")) ∧
    ((applyRule rulePrivacyHigh profileBiasLow).harmCategories
        Category.Privacy).severity = "HIGH" ∧
    ((applyRule rulePrivacyCritical profileBiasLow).harmCategories
        Category.Privacy).severity = "CRITICAL" := by
  decide

/-! ## C6: explanations keyed by category, severity and tool -/

/-- What one `addRiskExplanations` iteration does to its own
category entry, stated over the entry alone: a flagged entry gets the
first matching explanation row attached (and is unchanged when there
is none); an unflagged entry is unchanged. -/
def explainedCategory (st : AppState) (cd : CategoryRisk) (c : Category) :
    CategoryRisk :=
  if cd.hasRisk then
    match findExplanation st c cd.severity with
    | some e => { cd with explanation := some e }
    | none => cd
  else cd

/-- The active-risk entry a category contributes: present exactly
when the category is flagged and a matching explanation row exists. -/
def activeEntry (st : AppState) (p : RiskProfile) (d : Category) :
    Option ActiveRisk :=
  if (p.harmCategories d).hasRisk then
    (findExplanation st d (p.harmCategories d).severity).map (fun e =>
      { category := d, categoryName := harmCategoryTitle d,
        severity := (p.harmCategories d).severity, explanation := e })
  else none

theorem addExplStep_preserves (st : AppState) (p : RiskProfile) (d : Category) :
    ∀ c, ((addExplStep st p d).harmCategories c).severity
        = (p.harmCategories c).severity ∧
      ((addExplStep st p d).harmCategories c).hasRisk
        = (p.harmCategories c).hasRisk := by
  intro c
  simp only [addExplStep]
  by_cases hrisk : (p.harmCategories d).hasRisk = true
  · simp only [if_pos hrisk]
    cases hfind : findExplanation st d (p.harmCategories d).severity with
    | some e =>
        simp only [hfind, setCat]
        by_cases hcd : c = d
        · subst hcd
          simp
        · simp [hcd]
    | none => simp [hfind]
  · simp [hrisk]

theorem addExplStep_self (st : AppState) (p : RiskProfile) (c : Category) :
    (addExplStep st p c).harmCategories c
      = explainedCategory st (p.harmCategories c) c := by
  simp only [addExplStep, explainedCategory]
  by_cases hrisk : (p.harmCategories c).hasRisk = true
  · simp only [if_pos hrisk]
    cases hfind : findExplanation st c (p.harmCategories c).severity with
    | some e => simp [hfind, setCat]
    | none => simp [hfind]
  · simp [hrisk]

theorem addExplStep_other (st : AppState) (p : RiskProfile) (d c : Category)
    (hcd : c ≠ d) :
    (addExplStep st p d).harmCategories c = p.harmCategories c := by
  simp only [addExplStep]
  by_cases hrisk : (p.harmCategories d).hasRisk = true
  · simp only [if_pos hrisk]
    cases hfind : findExplanation st d (p.harmCategories d).severity with
    | some e => simp [hfind, setCat, hcd]
    | none => simp [hfind]
  · simp [hrisk]

theorem addExplStep_active (st : AppState) (p : RiskProfile) (d : Category) :
    (addExplStep st p d).activeRisks
      = p.activeRisks ++ (activeEntry st p d).toList := by
  simp only [addExplStep, activeEntry]
  by_cases hrisk : (p.harmCategories d).hasRisk = true
  · simp only [if_pos hrisk]
    cases hfind : findExplanation st d (p.harmCategories d).severity with
    | some e => simp [hfind]
    | none => simp [hfind]
  · simp only [if_neg hrisk]
    simp

theorem foldl_addExplStep_notmem (st : AppState) (l : List Category) :
    ∀ (p : RiskProfile) (c : Category), c ∉ l →
      (l.foldl (addExplStep st) p).harmCategories c = p.harmCategories c := by
  induction l with
  | nil => intro p c _; rfl
  | cons d t ih =>
      intro p c hc
      have hcd : c ≠ d := fun h => hc (h ▸ List.mem_cons_self d t)
      have hct : c ∉ t := fun h => hc (List.mem_cons_of_mem d h)
      rw [List.foldl_cons, ih (addExplStep st p d) c hct]
      exact addExplStep_other st p d c hcd

theorem foldl_addExplStep_mem (st : AppState) (l : List Category) :
    ∀ (p : RiskProfile) (c : Category), c ∈ l → l.Nodup →
      (l.foldl (addExplStep st) p).harmCategories c
        = explainedCategory st (p.harmCategories c) c := by
  induction l with
  | nil =>
      intro p c hmem _
      cases hmem
  | cons d t ih =>
      intro p c hmem hnd
      rw [List.foldl_cons]
      rcases List.mem_cons.mp hmem with rfl | hct
      · have hctn : c ∉ t := (List.nodup_cons.mp hnd).1
        rw [foldl_addExplStep_notmem st t (addExplStep st p c) c hctn]
        exact addExplStep_self st p c
      · have hcd : c ≠ d := by
          rintro rfl
          exact (List.nodup_cons.mp hnd).1 hct
        rw [ih (addExplStep st p d) c hct (List.nodup_cons.mp hnd).2]
        rw [addExplStep_other st p d c hcd]

theorem foldl_addExplStep_active (st : AppState) (p0 : RiskProfile)
    (l : List Category) :
    ∀ (p : RiskProfile),
      (∀ c, (p.harmCategories c).severity = (p0.harmCategories c).severity ∧
            (p.harmCategories c).hasRisk = (p0.harmCategories c).hasRisk) →
      (l.foldl (addExplStep st) p).activeRisks
        = p.activeRisks ++ l.filterMap (activeEntry st p0) := by
  induction l with
  | nil =>
      intro p _
      simp
  | cons d t ih =>
      intro p hagree
      rw [List.foldl_cons]
      have hstep_ag : ∀ c,
          ((addExplStep st p d).harmCategories c).severity
            = (p0.harmCategories c).severity ∧
          ((addExplStep st p d).harmCategories c).hasRisk
            = (p0.harmCategories c).hasRisk := by
        intro c
        obtain ⟨h1, h2⟩ := addExplStep_preserves st p d c
        exact ⟨h1.trans (hagree c).1, h2.trans (hagree c).2⟩
      rw [ih (addExplStep st p d) hstep_ag, addExplStep_active st p d]
      have hentry : activeEntry st p d = activeEntry st p0 d := by
        unfold activeEntry
        rw [(hagree d).1, (hagree d).2]
      rw [hentry]
      cases h : activeEntry st p0 d with
      | none => simp [List.filterMap_cons, h]
      | some e => simp [List.filterMap_cons, h, List.append_assoc]

/-- C6: explanation rows are keyed by category, severity and tool:
for every category flagged `hasRisk`, `addRiskExplanations` attaches
the first explanation row whose `Risk_Category` is the category name,
whose `Severity_Level` is the category's severity and whose
`Tool_Type` is the selected tool's CSV tool type (`findExplanation`),
and appends the corresponding active-risk entry; a flagged category
with no such row keeps its entry unchanged (no explanation) and
contributes no active-risk entry, and unflagged categories are left
alone. -/
theorem addRiskExplanations_spec (st : AppState) (p : RiskProfile)
    (c : Category) :
    (addRiskExplanations st p).harmCategories c
      = explainedCategory st (p.harmCategories c) c ∧
    (addRiskExplanations st p).activeRisks
      = p.activeRisks ++ Category.all.filterMap (activeEntry st p) := by
  constructor
  · exact foldl_addExplStep_mem st Category.all p c (Category.mem_all c)
      (by decide)
  · exact foldl_addExplStep_active st p Category.all p (fun _ => ⟨rfl, rfl⟩)

/-! ## C4: the linear pipeline -/

theorem addRiskExplanations_preserves (st : AppState) (p : RiskProfile) :
    ∀ c, ((addRiskExplanations st p).harmCategories c).severity
        = (p.harmCategories c).severity ∧
      ((addRiskExplanations st p).harmCategories c).hasRisk
        = (p.harmCategories c).hasRisk := by
  unfold addRiskExplanations
  generalize Category.all = l
  induction l generalizing p with
  | nil =>
      intro c
      exact ⟨rfl, rfl⟩
  | cons d t ih =>
      intro c
      rw [List.foldl_cons]
      obtain ⟨hs, hh⟩ := ih (addExplStep st p d) c
      obtain ⟨hs2, hh2⟩ := addExplStep_preserves st p d c
      exact ⟨hs.trans hs2, hh.trans hh2⟩

theorem determineOverallRisk_congr {p q : RiskProfile}
    (h : ∀ c, (q.harmCategories c).severity = (p.harmCategories c).severity ∧
              (q.harmCategories c).hasRisk = (p.harmCategories c).hasRisk) :
    determineOverallRisk q = determineOverallRisk p := by
  unfold determineOverallRisk
  have hstep : ∀ acc d, overallStep q acc d = overallStep p acc d := by
    intro acc d
    unfold overallStep
    rw [(h d).1, (h d).2]
  generalize "LOW" = acc
  generalize Category.all = l
  induction l generalizing acc with
  | nil => rfl
  | cons d t ih =>
      rw [List.foldl_cons, List.foldl_cons, hstep acc d]
      exact ih _

/-- C4: `calculateRiskProfile` is the fixed linear pipeline: every
answered tool question is folded into the severity map
(`foldToolAnswers`), then every answered context question's modifiers
are applied (`foldContextAnswers`), then the compound rules are
applied (`applyCompoundRiskRules`), and the overall risk level is
`determineOverallRisk` of the map resulting from those three stages
(the explanation stage in between changes neither severities nor
flags). -/
theorem calculateRiskProfile_pipeline (st : AppState) :
    (∀ c,
      ((calculateRiskProfile st).harmCategories c).severity
        = ((applyCompoundRiskRules st
            (foldContextAnswers st (foldToolAnswers st
              (initProfile st)))).harmCategories c).severity ∧
      ((calculateRiskProfile st).harmCategories c).hasRisk
        = ((applyCompoundRiskRules st
            (foldContextAnswers st (foldToolAnswers st
              (initProfile st)))).harmCategories c).hasRisk) ∧
    (calculateRiskProfile st).overallRisk
      = determineOverallRisk (applyCompoundRiskRules st
          (foldContextAnswers st (foldToolAnswers st (initProfile st)))) := by
  constructor
  · intro c
    exact addRiskExplanations_preserves st
      (applyCompoundRiskRules st
        (foldContextAnswers st (foldToolAnswers st (initProfile st)))) c
  · exact determineOverallRisk_congr
      (addRiskExplanations_preserves st
        (applyCompoundRiskRules st
          (foldContextAnswers st (foldToolAnswers st (initProfile st)))))
